import Mathlib

/-!
Verification development for the customer-profiler agent's A2A layer
(internal/a2a/handler.go and internal/a2a/models.go), covering the
protocol dispatcher, the business-idea extractor, the task-result
builders and the JSON wire model.

Modelling conventions:
* JSON documents are represented by the inductive `Json` tree; JSON
  numbers are kept as a decimal mantissa/exponent pair (the program
  never computes with numeric payloads, it only checks integrality
  for the historyLength field).
* Values held in Go interface-typed fields are `GoVal`: either a
  decoded JSON value (as json.Unmarshal produces) or a pointer to
  string (as the TextPart helper produces via &text).  A nil
  interface and a decoded JSON null are both GoVal.json Json.null,
  exactly as in Go where both compare equal to nil.
* Wall-clock time and uuid generation are ambient effects; the
  builders take the strings they would produce (the RFC3339 UTC
  timestamp and the two uuids) as explicit parameters.
* The Gemini client call is an external collaborator; the dispatcher
  is parameterised by a function String -> Except String ProfileResponse.
-/

namespace CustomerProfiler

/-- Whitespace predicate of Go's unicode.IsSpace (the characters
strings.TrimSpace strips). -/
def goIsSpace (c : Char) : Bool :=
  c == ' ' || c == '\t' || c == '\n' || c.toNat == 0x0B || c.toNat == 0x0C || c == '\r' ||
  c.toNat == 0x85 || c.toNat == 0xA0 || c.toNat == 0x1680 ||
  (0x2000 ≤ c.toNat && c.toNat ≤ 0x200A) ||
  c.toNat == 0x2028 || c.toNat == 0x2029 || c.toNat == 0x202F ||
  c.toNat == 0x205F || c.toNat == 0x3000

/-- Character-level core of strings.TrimSpace: drop leading and trailing
whitespace. -/
def trimChars (l : List Char) : List Char :=
  ((l.dropWhile goIsSpace).reverse.dropWhile goIsSpace).reverse

/-- Go strings.TrimSpace. -/
def trimSpace (s : String) : String :=
  String.mk (trimChars s.data)

/-- Go strings.ToLower, restricted to ASCII case mapping (the noise
keywords matched against are ASCII). -/
def lowerStr (s : String) : String :=
  String.mk (s.data.map Char.toLower)

/-- Go strings.Contains: substring containment. -/
def containsSub (hay needle : String) : Bool :=
  decide (needle.data <:+: hay.data)

/-- Character-level core of strings.ReplaceAll for a non-empty pattern:
replace every non-overlapping occurrence, scanning left to right.  The
fuel makes the recursion structural; every call consumes at least one
input character, so fuel = input length never runs out. -/
def replaceAllChars (pat rep : List Char) : Nat → List Char → List Char
  | _, [] => []
  | 0, l => l
  | fuel + 1, c :: rest =>
    if pat ≠ [] ∧ pat.isPrefixOf (c :: rest) then
      rep ++ replaceAllChars pat rep fuel ((c :: rest).drop pat.length)
    else
      c :: replaceAllChars pat rep fuel rest

/-- Go strings.ReplaceAll (only ever called with the non-empty patterns
"&lt;p&gt;" and "&lt;/p&gt;"; the empty-pattern insertion behaviour of Go is not
modelled). -/
def replaceAll (s pat rep : String) : String :=
  String.mk (replaceAllChars pat.data rep.data s.data.length s.data)

/-- Go strings.Join. -/
def stringsJoin (elems : List String) (sep : String) : String :=
  match elems with
  | [] => ""
  | e :: rest => rest.foldl (fun acc x => acc ++ sep ++ x) e

/-! ## JSON trees and dynamic Go values -/

/-- A JSON document.  Object fields are kept in document order
(duplicate keys are possible in a raw document; decoding collapses
them with last-occurrence-wins, as Go's map decoding does).  A number
is kept as mantissa times ten to the exponent. -/
inductive Json where
  | null
  | bool (b : Bool)
  | num (mantissa : Int) (exp10 : Int)
  | str (s : String)
  | arr (elems : List Json)
  | obj (fields : List (String × Json))

mutual

/-- Decidable equality for JSON trees (written by hand: deriving does
not yet handle this nested inductive). -/
def jsonDecEq : (a b : Json) → Decidable (a = b)
  | .null, .null => isTrue rfl
  | .bool a, .bool b =>
    if h : a = b then isTrue (by rw [h]) else isFalse (fun hh => h (Json.bool.inj hh))
  | .num m e, .num m2 e2 =>
    if h : m = m2 then
      if h2 : e = e2 then isTrue (by rw [h, h2])
      else isFalse (fun hh => h2 (Json.num.inj hh).2)
    else isFalse (fun hh => h (Json.num.inj hh).1)
  | .str s, .str t =>
    if h : s = t then isTrue (by rw [h]) else isFalse (fun hh => h (Json.str.inj hh))
  | .arr xs, .arr ys =>
    match jsonListDecEq xs ys with
    | isTrue h => isTrue (by rw [h])
    | isFalse h => isFalse (fun hh => h (Json.arr.inj hh))
  | .obj fs, .obj gs =>
    match jsonFieldsDecEq fs gs with
    | isTrue h => isTrue (by rw [h])
    | isFalse h => isFalse (fun hh => h (Json.obj.inj hh))
  | .null, .bool _ | .null, .num _ _ | .null, .str _ | .null, .arr _ | .null, .obj _ => isFalse nofun
  | .bool _, .null | .bool _, .num _ _ | .bool _, .str _ | .bool _, .arr _ | .bool _, .obj _ => isFalse nofun
  | .num _ _, .null | .num _ _, .bool _ | .num _ _, .str _ | .num _ _, .arr _ | .num _ _, .obj _ => isFalse nofun
  | .str _, .null | .str _, .bool _ | .str _, .num _ _ | .str _, .arr _ | .str _, .obj _ => isFalse nofun
  | .arr _, .null | .arr _, .bool _ | .arr _, .num _ _ | .arr _, .str _ | .arr _, .obj _ => isFalse nofun
  | .obj _, .null | .obj _, .bool _ | .obj _, .num _ _ | .obj _, .str _ | .obj _, .arr _ => isFalse nofun

def jsonListDecEq : (xs ys : List Json) → Decidable (xs = ys)
  | [], [] => isTrue rfl
  | x :: xs, y :: ys =>
    match jsonDecEq x y with
    | isTrue h =>
      match jsonListDecEq xs ys with
      | isTrue h2 => isTrue (by rw [h, h2])
      | isFalse h2 => isFalse (fun hh => h2 (List.cons.inj hh).2)
    | isFalse h => isFalse (fun hh => h (List.cons.inj hh).1)
  | [], _ :: _ => isFalse nofun
  | _ :: _, [] => isFalse nofun

def jsonFieldsDecEq : (xs ys : List (String × Json)) → Decidable (xs = ys)
  | [], [] => isTrue rfl
  | (k, v) :: xs, (k2, v2) :: ys =>
    if h : k = k2 then
      match jsonDecEq v v2 with
      | isTrue h2 =>
        match jsonFieldsDecEq xs ys with
        | isTrue h3 => isTrue (by rw [h, h2, h3])
        | isFalse h3 => isFalse (fun hh => h3 (List.cons.inj hh).2)
      | isFalse h2 => isFalse (fun hh => h2 (congrArg Prod.snd (List.cons.inj hh).1))
    else isFalse (fun hh => h (congrArg Prod.fst (List.cons.inj hh).1))
  | [], _ :: _ => isFalse nofun
  | _ :: _, [] => isFalse nofun

end

instance : DecidableEq Json := jsonDecEq

/-- A value held in a Go interface-typed field: either a decoded JSON
value (what json.Unmarshal stores) or a pointer to a string (what the
TextPart helper stores via &text).  GoVal.json Json.null plays the
role of the nil interface. -/
inductive GoVal where
  | json (j : Json)
  | ptrStr (s : String)
deriving DecidableEq

/-- Go json.Marshal on a dynamic value of these shapes: a decoded JSON
value re-serializes to itself, a *string serializes to the JSON string
it points to. -/
def marshalGoVal : GoVal → Json
  | .json j => j
  | .ptrStr s => .str s

/-! ## JSON text parser (the lexical layer of encoding/json)

A fueled recursive-descent parser over the character list.  The fuel
is generous (each nesting level and member consumes input); it exists
only to make the recursion structural. -/

def lbrace : Char := Char.ofNat 123
def rbrace : Char := Char.ofNat 125

def hexVal (c : Char) : Option Nat :=
  if '0' ≤ c && c ≤ '9' then some (c.toNat - 48)
  else if 'a' ≤ c && c ≤ 'f' then some (c.toNat - 87)
  else if 'A' ≤ c && c ≤ 'F' then some (c.toNat - 55)
  else none

def isJsonWS (c : Char) : Bool :=
  c == ' ' || c == '\t' || c == '\n' || c == '\r'

def skipWS (l : List Char) : List Char :=
  l.dropWhile isJsonWS

/-- Parse the body of a JSON string literal (after the opening quote),
returning the decoded characters and the input after the closing
quote.  Common escapes and \uXXXX are supported (surrogate-pair
combination is not modelled; no claim input uses it). -/
def parseStringBody : Nat → List Char → Option (List Char × List Char)
  | 0, _ => none
  | _, [] => none
  | fuel + 1, c :: rest =>
    if c == '"' then some ([], rest)
    else if c == '\\' then
      match rest with
      | [] => none
      | e :: rest2 =>
        if e == '"' then (parseStringBody fuel rest2).map (fun p => ('"' :: p.1, p.2))
        else if e == '\\' then (parseStringBody fuel rest2).map (fun p => ('\\' :: p.1, p.2))
        else if e == '/' then (parseStringBody fuel rest2).map (fun p => ('/' :: p.1, p.2))
        else if e == 'b' then (parseStringBody fuel rest2).map (fun p => ('\x08' :: p.1, p.2))
        else if e == 'f' then (parseStringBody fuel rest2).map (fun p => ('\x0c' :: p.1, p.2))
        else if e == 'n' then (parseStringBody fuel rest2).map (fun p => ('\n' :: p.1, p.2))
        else if e == 'r' then (parseStringBody fuel rest2).map (fun p => ('\r' :: p.1, p.2))
        else if e == 't' then (parseStringBody fuel rest2).map (fun p => ('\t' :: p.1, p.2))
        else if e == 'u' then
          match rest2 with
          | a :: b :: c2 :: d :: rest3 =>
            match hexVal a, hexVal b, hexVal c2, hexVal d with
            | some x, some y, some z, some w =>
              (parseStringBody fuel rest3).map
                (fun p => (Char.ofNat (((x * 16 + y) * 16 + z) * 16 + w) :: p.1, p.2))
            | _, _, _, _ => none
          | _ => none
        else none
    else (parseStringBody fuel rest).map (fun p => (c :: p.1, p.2))

def isDigit (c : Char) : Bool := '0' ≤ c && c ≤ '9'

def digitsToNat (l : List Char) : Nat :=
  l.foldl (fun a c => a * 10 + (c.toNat - 48)) 0

/-- Parse a JSON number, returned as (mantissa, decimal exponent) and
the remaining input. -/
def parseNumber (l : List Char) : Option ((Int × Int) × List Char) :=
  let (neg, l1) := match l with
    | '-' :: t => (true, t)
    | _ => (false, l)
  let intDigits := l1.takeWhile isDigit
  let l2 := l1.dropWhile isDigit
  if intDigits = [] then none
  else
    let (fracDigits, l3) := match l2 with
      | '.' :: t => (t.takeWhile isDigit, t.dropWhile isDigit)
      | _ => ([], l2)
    if l2 ≠ [] ∧ l2.head? = some '.' ∧ fracDigits = [] then none
    else
      let mant : Int := Int.ofNat (digitsToNat (intDigits ++ fracDigits))
      let mant := if neg then -mant else mant
      let baseExp : Int := -(Int.ofNat fracDigits.length)
      match l3 with
      | 'e' :: t | 'E' :: t =>
        let (eneg, t1) := match t with
          | '-' :: t2 => (true, t2)
          | '+' :: t2 => (false, t2)
          | _ => (false, t)
        let eDigits := t1.takeWhile isDigit
        let t2 := t1.dropWhile isDigit
        if eDigits = [] then none
        else
          let ev : Int := Int.ofNat (digitsToNat eDigits)
          let ev := if eneg then -ev else ev
          some ((mant, baseExp + ev), t2)
      | _ => some ((mant, baseExp), l3)

mutual

/-- Parse one JSON value (after skipping leading whitespace). -/
def parseValue : Nat → List Char → Option (Json × List Char)
  | 0, _ => none
  | fuel + 1, l =>
    match skipWS l with
    | [] => none
    | c :: rest =>
      if c == '"' then
        (parseStringBody (rest.length + 1) rest).map (fun p => (Json.str (String.mk p.1), p.2))
      else if c == 't' then
        match rest with
        | 'r' :: 'u' :: 'e' :: r => some (Json.bool true, r)
        | _ => none
      else if c == 'f' then
        match rest with
        | 'a' :: 'l' :: 's' :: 'e' :: r => some (Json.bool false, r)
        | _ => none
      else if c == 'n' then
        match rest with
        | 'u' :: 'l' :: 'l' :: r => some (Json.null, r)
        | _ => none
      else if c == lbrace then
        match skipWS rest with
        | c2 :: r2 =>
          if c2 == rbrace then some (Json.obj [], r2)
          else (parseMembers fuel (c2 :: r2)).map (fun p => (Json.obj p.1, p.2))
        | [] => none
      else if c == '[' then
        match skipWS rest with
        | ']' :: r2 => some (Json.arr [], r2)
        | r2 => (parseElems fuel r2).map (fun p => (Json.arr p.1, p.2))
      else
        (parseNumber (c :: rest)).map (fun p => (Json.num p.1.1 p.1.2, p.2))

/-- Parse the members of a JSON object (at least one), up to and
including the closing brace. -/
def parseMembers : Nat → List Char → Option (List (String × Json) × List Char)
  | 0, _ => none
  | fuel + 1, l =>
    match skipWS l with
    | c :: rest =>
      if c == '"' then
        match parseStringBody (rest.length + 1) rest with
        | some (k, r1) =>
          match skipWS r1 with
          | ':' :: r2 =>
            match parseValue fuel r2 with
            | some (v, r3) =>
              match skipWS r3 with
              | ',' :: r4 =>
                (parseMembers fuel r4).map (fun p => ((String.mk k, v) :: p.1, p.2))
              | c2 :: r4 =>
                if c2 == rbrace then some ([(String.mk k, v)], r4) else none
              | [] => none
            | none => none
          | _ => none
        | none => none
      else none
    | [] => none

/-- Parse the elements of a JSON array (at least one), up to and
including the closing bracket. -/
def parseElems : Nat → List Char → Option (List Json × List Char)
  | 0, _ => none
  | fuel + 1, l =>
    match parseValue fuel l with
    | some (v, r1) =>
      match skipWS r1 with
      | ',' :: r2 => (parseElems fuel r2).map (fun p => (v :: p.1, p.2))
      | ']' :: r2 => some ([v], r2)
      | _ => none
    | none => none

end

/-- Go json.Unmarshal's lexical layer: the input must be one JSON value
followed only by whitespace. -/
def parseJsonText (s : String) : Option Json :=
  match parseValue (4 * (s.data.length + 2)) s.data with
  | some (j, rest) => if skipWS rest = [] then some j else none
  | none => none

/-- The lexical layer of gin's ShouldBindJSON (json.Decoder.Decode):
reads one JSON value and ignores anything after it. -/
def parseJsonPrefix (s : String) : Option Json :=
  match parseValue (4 * (s.data.length + 2)) s.data with
  | some (j, _) => some j
  | none => none

/-! ## A2A data model (internal/a2a/models.go) -/

/-- MessagePart: Kind string, Text interface, Data interface (both
interface fields carry GoVal; the nil interface is GoVal.json
Json.null). -/
structure MessagePart where
  kind : String
  text : GoVal
  data : GoVal
deriving DecidableEq

/-- A2AMessage: Kind, Role, Parts, MessageID, TaskID *string. -/
structure A2AMessage where
  kind : String
  role : String
  parts : List MessagePart
  messageId : String
  taskId : Option String
deriving DecidableEq

/-- MessageConfiguration. -/
structure MessageConfiguration where
  acceptedOutputModes : List String
  historyLength : Int
  blocking : Bool
deriving DecidableEq

/-- MessageParams: the bare message-request object. -/
structure MessageParams where
  message : A2AMessage
  configuration : MessageConfiguration
deriving DecidableEq

/-- JSONRPCRequest: the envelope.  The spec calls the jsonrpc field
protocolVersion and the whole struct the Envelope. -/
structure JSONRPCRequest where
  jsonrpc : String
  id : String
  method : String
  params : GoVal
deriving DecidableEq

/-- TaskStatus. -/
structure TaskStatus where
  state : String
  timestamp : String
  message : Option A2AMessage
deriving DecidableEq

/-- Artifact. -/
structure Artifact where
  artifactId : String
  name : String
  parts : List MessagePart
deriving DecidableEq

/-- TaskResult.  Slice fields are Lists; the builder outputs never
hit the nil-versus-empty-slice distinction. -/
structure TaskResult where
  id : String
  contextId : String
  status : TaskStatus
  artifacts : List Artifact
  history : List A2AMessage
  kind : String
deriving DecidableEq

/-- Task state constants from models.go. -/
def StateWorking : String := "working"
def StateInputRequired : String := "input-required"
def StateCompleted : String := "completed"
def StateFailed : String := "failed"

/-- Message role constants from models.go. -/
def RoleUser : String := "user"
def RoleAgent : String := "agent"

/-- TextPart helper: stores a pointer to the string in the
interface-typed Text field (Text: &text in the source). -/
def TextPart (text : String) : MessagePart :=
  { kind := "text", text := GoVal.ptrStr text, data := GoVal.json Json.null }

/-! ## Customer models (internal/models/customer.go) -/

/-- CustomerProfile. -/
structure CustomerProfile where
  age : String
  gender : String
  location : String
  occupation : String
  income : String
  motivations : List String
  interests : List String
  painPoints : List String
  buyingBehaviors : List String
  preferredChannels : List String
deriving DecidableEq

/-- ProfileResponse. -/
structure ProfileResponse where
  businessIdea : String
  profiles : List CustomerProfile
  summary : String
  keywords : List String
deriving DecidableEq

/-! ## json.Unmarshal semantics for the model structs

Go decodes a JSON object into a struct by walking the document's
fields in order.  A key selects the struct field whose tag matches
exactly or case-insensitively; unknown keys are skipped; JSON null is
a no-op on string/bool/int fields, sets pointers and slices to nil,
and stores nil in interface fields; a type mismatch on any occurrence
makes the whole Unmarshal fail. -/

/-- Key-to-field matching of encoding/json: exact, else
case-insensitive. -/
def keyMatches (k name : String) : Bool :=
  k == name || (k.data.map Char.toLower == name.data.map Char.toLower)

/-- Decode the elements of a JSON array one after the other, failing
if any element fails (the element loop of Go's slice decoding). -/
def decodeEach (f : α → Option β) : List α → Option (List β)
  | [] => some []
  | a :: t =>
    match f a with
    | some b => (decodeEach f t).map (fun bs => b :: bs)
    | none => none

/-- Decode a JSON value into a string field (null is a no-op). -/
def setStr (cur : String) : Json → Option String
  | .null => some cur
  | .str s => some s
  | _ => none

/-- Decode a JSON value into a *string field (null sets nil). -/
def setOptStr : Json → Option (Option String)
  | .null => some none
  | .str s => some (some s)
  | _ => none

/-- Decode a JSON value into a bool field (null is a no-op). -/
def setBool (cur : Bool) : Json → Option Bool
  | .null => some cur
  | .bool b => some b
  | _ => none

/-- The integer denoted by mantissa and decimal exponent, when the
number is integral (Go rejects fractional values for int fields). -/
def asInt? (m e : Int) : Option Int :=
  if 0 ≤ e then some (m * (10 : Int) ^ e.toNat)
  else
    let d : Int := (10 : Int) ^ (-e).toNat
    if m % d = 0 then some (m / d) else none

/-- Decode a JSON value into an int field (null is a no-op). -/
def setInt (cur : Int) : Json → Option Int
  | .null => some cur
  | .num m e => asInt? m e
  | _ => none

/-- Decode a JSON value into a []string field (null sets nil). -/
def setStrList (_cur : List String) : Json → Option (List String)
  | .null => some []
  | .arr es => decodeEach (fun e => setStr "" e) es
  | _ => none

/-- Fold a JSON object's fields through a per-field decoder. -/
def foldFields (apply : α → String → Json → Option α) : α → List (String × Json) → Option α
  | r, [] => some r
  | r, (k, v) :: rest =>
    match apply r k v with
    | some r2 => foldFields apply r2 rest
    | none => none

def zeroPart : MessagePart := { kind := "", text := GoVal.json Json.null, data := GoVal.json Json.null }

def applyPartField (p : MessagePart) (k : String) (v : Json) : Option MessagePart :=
  if keyMatches k "kind" then (setStr p.kind v).map (fun s => { p with kind := s })
  else if keyMatches k "text" then some { p with text := GoVal.json v }
  else if keyMatches k "data" then some { p with data := GoVal.json v }
  else some p

def decodePart : Json → Option MessagePart
  | .null => some zeroPart
  | .obj fs => foldFields applyPartField zeroPart fs
  | _ => none

/-- Decode a JSON value into a []MessagePart field (null sets nil). -/
def setPartList : Json → Option (List MessagePart)
  | .null => some []
  | .arr es => decodeEach decodePart es
  | _ => none

def zeroMessage : A2AMessage :=
  { kind := "", role := "", parts := [], messageId := "", taskId := none }

def applyMessageField (m : A2AMessage) (k : String) (v : Json) : Option A2AMessage :=
  if keyMatches k "kind" then (setStr m.kind v).map (fun s => { m with kind := s })
  else if keyMatches k "role" then (setStr m.role v).map (fun s => { m with role := s })
  else if keyMatches k "parts" then (setPartList v).map (fun ps => { m with parts := ps })
  else if keyMatches k "messageId" then (setStr m.messageId v).map (fun s => { m with messageId := s })
  else if keyMatches k "taskId" then (setOptStr v).map (fun t => { m with taskId := t })
  else some m

def decodeMessage : Json → Option A2AMessage
  | .null => some zeroMessage
  | .obj fs => foldFields applyMessageField zeroMessage fs
  | _ => none

def zeroConfig : MessageConfiguration :=
  { acceptedOutputModes := [], historyLength := 0, blocking := false }

def applyConfigField (c : MessageConfiguration) (k : String) (v : Json) : Option MessageConfiguration :=
  if keyMatches k "acceptedOutputModes" then
    (setStrList c.acceptedOutputModes v).map (fun xs => { c with acceptedOutputModes := xs })
  else if keyMatches k "historyLength" then
    (setInt c.historyLength v).map (fun n => { c with historyLength := n })
  else if keyMatches k "blocking" then
    (setBool c.blocking v).map (fun b => { c with blocking := b })
  else some c

def decodeConfig : Json → Option MessageConfiguration
  | .null => some zeroConfig
  | .obj fs => foldFields applyConfigField zeroConfig fs
  | _ => none

def zeroParams : MessageParams := { message := zeroMessage, configuration := zeroConfig }

/-- Decode a JSON value into a struct-valued A2AMessage field (null is
a no-op). -/
def setMessageValue (cur : A2AMessage) (j : Json) : Option A2AMessage :=
  if j = Json.null then some cur else decodeMessage j

/-- Decode a JSON value into a struct-valued MessageConfiguration
field (null is a no-op). -/
def setConfigValue (cur : MessageConfiguration) (j : Json) : Option MessageConfiguration :=
  if j = Json.null then some cur else decodeConfig j

def applyParamsField (mp : MessageParams) (k : String) (v : Json) : Option MessageParams :=
  if keyMatches k "message" then
    (setMessageValue mp.message v).map (fun m => { mp with message := m })
  else if keyMatches k "configuration" then
    (setConfigValue mp.configuration v).map (fun c => { mp with configuration := c })
  else some mp

/-- Go json.Unmarshal of a JSON value into MessageParams. -/
def decodeMessageParams : Json → Option MessageParams
  | .null => some zeroParams
  | .obj fs => foldFields applyParamsField zeroParams fs
  | _ => none

def zeroRPC : JSONRPCRequest :=
  { jsonrpc := "", id := "", method := "", params := GoVal.json Json.null }

def applyRPCField (r : JSONRPCRequest) (k : String) (v : Json) : Option JSONRPCRequest :=
  if keyMatches k "jsonrpc" then (setStr r.jsonrpc v).map (fun s => { r with jsonrpc := s })
  else if keyMatches k "id" then (setStr r.id v).map (fun s => { r with id := s })
  else if keyMatches k "method" then (setStr r.method v).map (fun s => { r with method := s })
  else if keyMatches k "params" then some { r with params := GoVal.json v }
  else some r

/-- Go json.Unmarshal of a JSON value into JSONRPCRequest (the binding
step of gin's ShouldBindJSON). -/
def decodeRPCRequest : Json → Option JSONRPCRequest
  | .null => some zeroRPC
  | .obj fs => foldFields applyRPCField zeroRPC fs
  | _ => none

def zeroStatus : TaskStatus := { state := "", timestamp := "", message := none }

/-- Decode a JSON value into a *A2AMessage field (null sets nil). -/
def setOptMessage (j : Json) : Option (Option A2AMessage) :=
  if j = Json.null then some none else (decodeMessage j).map some

def applyStatusField (st : TaskStatus) (k : String) (v : Json) : Option TaskStatus :=
  if keyMatches k "state" then (setStr st.state v).map (fun s => { st with state := s })
  else if keyMatches k "timestamp" then (setStr st.timestamp v).map (fun s => { st with timestamp := s })
  else if keyMatches k "message" then
    (setOptMessage v).map (fun m => { st with message := m })
  else some st

def decodeStatus : Json → Option TaskStatus
  | .null => some zeroStatus
  | .obj fs => foldFields applyStatusField zeroStatus fs
  | _ => none

def zeroArtifact : Artifact := { artifactId := "", name := "", parts := [] }

def applyArtifactField (a : Artifact) (k : String) (v : Json) : Option Artifact :=
  if keyMatches k "artifactId" then (setStr a.artifactId v).map (fun s => { a with artifactId := s })
  else if keyMatches k "name" then (setStr a.name v).map (fun s => { a with name := s })
  else if keyMatches k "parts" then (setPartList v).map (fun ps => { a with parts := ps })
  else some a

def decodeArtifact : Json → Option Artifact
  | .null => some zeroArtifact
  | .obj fs => foldFields applyArtifactField zeroArtifact fs
  | _ => none

def zeroTaskResult : TaskResult :=
  { id := "", contextId := "", status := zeroStatus, artifacts := [], history := [], kind := "" }

/-- Decode a JSON value into a struct-valued TaskStatus field (null is
a no-op). -/
def setStatusValue (cur : TaskStatus) (j : Json) : Option TaskStatus :=
  if j = Json.null then some cur else decodeStatus j

/-- Decode a JSON value into a []Artifact field (null sets nil). -/
def setArtifactList : Json → Option (List Artifact)
  | .null => some []
  | .arr es => decodeEach decodeArtifact es
  | _ => none

/-- Decode a JSON value into a []A2AMessage field (null sets nil). -/
def setHistoryList : Json → Option (List A2AMessage)
  | .null => some []
  | .arr es => decodeEach decodeMessage es
  | _ => none

def applyTaskResultField (t : TaskResult) (k : String) (v : Json) : Option TaskResult :=
  if keyMatches k "id" then (setStr t.id v).map (fun s => { t with id := s })
  else if keyMatches k "contextId" then (setStr t.contextId v).map (fun s => { t with contextId := s })
  else if keyMatches k "status" then
    (setStatusValue t.status v).map (fun st => { t with status := st })
  else if keyMatches k "artifacts" then
    (setArtifactList v).map (fun xs => { t with artifacts := xs })
  else if keyMatches k "history" then
    (setHistoryList v).map (fun xs => { t with history := xs })
  else if keyMatches k "kind" then (setStr t.kind v).map (fun s => { t with kind := s })
  else some t

/-- Go json.Unmarshal of a JSON value into TaskResult. -/
def decodeTaskResult : Json → Option TaskResult
  | .null => some zeroTaskResult
  | .obj fs => foldFields applyTaskResultField zeroTaskResult fs
  | _ => none

/-! ## json.Marshal semantics for TaskResult

Fields are emitted in struct order; omitempty drops empty strings,
empty slices, nil pointers and nil interfaces. -/

def encodeGoVal : GoVal → Json
  | .json j => j
  | .ptrStr s => .str s

def encodePart (p : MessagePart) : Json :=
  Json.obj ([("kind", Json.str p.kind)]
    ++ (if p.text = GoVal.json Json.null then [] else [("text", encodeGoVal p.text)])
    ++ (if p.data = GoVal.json Json.null then [] else [("data", encodeGoVal p.data)]))

def encodeMessage (m : A2AMessage) : Json :=
  Json.obj ([("kind", Json.str m.kind), ("role", Json.str m.role),
      ("parts", Json.arr (m.parts.map encodePart))]
    ++ (if m.messageId = "" then [] else [("messageId", Json.str m.messageId)])
    ++ (match m.taskId with
        | none => []
        | some t => [("taskId", Json.str t)]))

def encodeStatus (st : TaskStatus) : Json :=
  Json.obj ([("state", Json.str st.state), ("timestamp", Json.str st.timestamp)]
    ++ (match st.message with
        | none => []
        | some m => [("message", encodeMessage m)]))

def encodeArtifact (a : Artifact) : Json :=
  Json.obj [("artifactId", Json.str a.artifactId), ("name", Json.str a.name),
    ("parts", Json.arr (a.parts.map encodePart))]

/-- Go json.Marshal of a TaskResult. -/
def encodeTaskResult (t : TaskResult) : Json :=
  Json.obj ([("id", Json.str t.id)]
    ++ (if t.contextId = "" then [] else [("contextId", Json.str t.contextId)])
    ++ [("status", encodeStatus t.status)]
    ++ (if t.artifacts = [] then [] else [("artifacts", Json.arr (t.artifacts.map encodeArtifact))])
    ++ (if t.history = [] then [] else [("history", Json.arr (t.history.map encodeMessage))])
    ++ [("kind", Json.str t.kind)])

/-! ## Business-idea extractor (extractBusinessIdea in handler.go) -/

/-- Go map indexing on a decoded JSON object: duplicate document keys
collapse to the last occurrence (maps are built by sequential
assignment). -/
def mapGet (item : List (String × Json)) (k : String) : Option Json :=
  (item.reverse.find? (fun kv => kv.1 == k)).map (fun kv => kv.2)

/-- The kind field of a history record: item["kind"].(string). -/
def recKind? (item : List (String × Json)) : Option String :=
  match mapGet item "kind" with
  | some (Json.str s) => some s
  | _ => none

/-- The text field of a history record: item["text"].(string). -/
def recText? (item : List (String × Json)) : Option String :=
  match mapGet item "text" with
  | some (Json.str s) => some s
  | _ => none

/-- The normalization applied to a history candidate: trim, strip
literal paragraph tags, trim again. -/
def cleanHistoryText (text : String) : String :=
  trimSpace (replaceAll (replaceAll (trimSpace text) "<p>" "") "</p>" "")

/-- The noise filter: case-insensitive substring match on "generating"
or "creating", or exact match on the ellipsis artifacts. -/
def isNoise (cleanText : String) : Bool :=
  containsSub (lowerStr cleanText) "generating" ||
  containsSub (lowerStr cleanText) "creating" ||
  cleanText == "." || cleanText == ".." || cleanText == "..." || cleanText == "ce..."

/-- One iteration of the history loop: the candidate a record
contributes, if the loop would accept it and break. -/
def recordCandidate (item : List (String × Json)) : Option String :=
  match recKind? item with
  | some kind =>
    if kind = "text" then
      match recText? item with
      | some text =>
        if text ≠ "" then
          let cleanText := cleanHistoryText text
          if isNoise cleanText then none
          else if cleanText ≠ "" then some cleanText else none
        else none
      | none => none
    else none
  | none => none

/-- The history loop of extractBusinessIdea, already running over the
reversed record list (the source iterates i from len-1 down to 0),
stopping at the first accepted candidate. -/
def historyScan : List (List (String × Json)) → Option String
  | [] => none
  | item :: older =>
    match recordCandidate item with
    | some t => some t
    | none => historyScan older

/-- Decode a data part's payload into the []map[string]interface{}
record array (the json.Unmarshal target of the data branch).  A null
element leaves its map nil, i.e. empty. -/
def asRecordArray : Json → Option (List (List (String × Json)))
  | .arr es => decodeEach (fun e =>
      match e with
      | .obj fs => some fs
      | .null => some ([] : List (String × Json))
      | _ => none) es
  | .null => some []
  | _ => none

/-- The decode phase of the data branch: a string payload is raw JSON
text and is parsed; any other decoded value is re-marshalled and
re-parsed, which at tree level is the identity; a *string payload
re-marshals to a JSON string and then fails to decode as a record
array. -/
def dataRecords : GoVal → Option (List (List (String × Json)))
  | .json (.str s) =>
    if s = "" then some []
    else
      match parseJsonText s with
      | some j => asRecordArray j
      | none => none
  | .json j => asRecordArray j
  | .ptrStr s => asRecordArray (.str s)

/-- The strings one part appends to the texts accumulator: a direct
non-empty string text part contributes itself verbatim; a non-nil
data part contributes the most recent accepted history candidate, if
any (decode failures skip the part). -/
def partTexts (p : MessagePart) : List String :=
  (if p.kind = "text" then
    match p.text with
    | GoVal.json (Json.str s) => if s = "" then [] else [s]
    | _ => []
  else []) ++
  (if p.kind = "data" ∧ p.data ≠ GoVal.json Json.null then
    match dataRecords p.data with
    | some records =>
      match historyScan records.reverse with
      | some t => [t]
      | none => []
    | none => []
  else [])

/-- extractBusinessIdea: accumulate per-part candidate strings in
encounter order, join with single spaces, trim the joined result. -/
def extractBusinessIdea (msg : A2AMessage) : String :=
  trimSpace (stringsJoin (msg.parts.flatMap partTexts) " ")

/-! ## Profile formatter (formatProfileResponse in handler.go) -/

def bulletLines (items : List String) : String :=
  String.join (items.map (fun it => "- " ++ trimSpace it ++ "\n"))

def profileBlock (p : CustomerProfile) : String :=
  "**Demographics:**\n" ++
  "- Age: " ++ p.age ++ "\n" ++
  "- Gender: " ++ p.gender ++ "\n" ++
  "- Location: " ++ p.location ++ "\n" ++
  "- Occupation: " ++ p.occupation ++ "\n" ++
  "- Income: " ++ p.income ++ "\n" ++
  (if p.painPoints = [] then "" else "\n**Pain Points:**\n" ++ bulletLines p.painPoints) ++
  (if p.motivations = [] then "" else "\n**Motivations:**\n" ++ bulletLines p.motivations) ++
  (if p.interests = [] then "" else "\n**Interests:**\n" ++ bulletLines p.interests) ++
  (if p.preferredChannels = [] then "" else "\n**Preferred Channels:**\n" ++ bulletLines p.preferredChannels)

/-- formatProfileResponse: heading with the idea, profile blocks
separated by a horizontal rule; a literal sentence for zero
profiles. -/
def formatProfileResponse (resp : ProfileResponse) : String :=
  match resp.profiles with
  | [] => "No customer profiles generated."
  | p :: rest =>
    "# Customer Profile for: " ++ resp.businessIdea ++ "\n\n" ++ profileBlock p ++
    String.join (rest.map (fun q => "\n---\n\n" ++ profileBlock q))

/-! ## Task-result builders (createSuccessTaskResult /
createErrorTaskResult in handler.go)

The wall-clock timestamp (Timestamp() = time.Now().UTC().Format(RFC3339))
and the two uuid.New() values are ambient effects, passed in as the
strings now, artifactID and messageID. -/

def createSuccessTaskResult (taskID : String) (profileResp : ProfileResponse)
    (now artifactID messageID : String) : TaskResult :=
  { id := taskID
    contextId := ""
    kind := "task"
    status :=
      { state := StateCompleted
        timestamp := now
        message := some
          { kind := "message"
            role := RoleAgent
            messageId := messageID
            taskId := some taskID
            parts := [TextPart (formatProfileResponse profileResp)] } }
    artifacts :=
      [{ artifactId := artifactID
         name := "Customer Profile Data"
         parts := [TextPart (formatProfileResponse profileResp)] }]
    history := [] }

def createErrorTaskResult (taskID errorMsg now : String) : TaskResult :=
  { id := taskID
    contextId := ""
    kind := "task"
    status :=
      { state := StateFailed
        timestamp := now
        message := some
          { kind := "text"
            role := RoleAgent
            messageId := ""
            taskId := none
            parts := [TextPart errorMsg] } }
    artifacts := []
    history := [] }

/-! ## Protocol dispatcher (HandleProfiler / handleTask /
handleDirectMessage in handler.go) -/

/-- The response sent back, always with HTTP 200: either a JSON-RPC
success envelope carrying a result (sendSuccessResponse) or a JSON-RPC
error envelope carrying a code and message (sendErrorResponse). -/
inductive Response where
  | success (id : String) (result : TaskResult)
  | rpcError (id : String) (message : String) (code : Int)
deriving DecidableEq

/-- The task body shared verbatim by handleTask and
handleDirectMessage (the source duplicates this block, with taskID
bound to rpcReq.ID or to "direct-message"): extract the idea, soft-fail
on an empty idea, call the generation capability, wrap the outcome. -/
def processTask (gen : String → Except String ProfileResponse)
    (now artifactID messageID : String) (taskID : String) (msg : A2AMessage) : Response :=
  let businessIdea := extractBusinessIdea msg
  if businessIdea = "" then
    Response.success taskID
      (createErrorTaskResult taskID "Please provide a business idea to generate customer profiles." now)
  else
    match gen businessIdea with
    | Except.error e =>
      Response.success taskID
        (createErrorTaskResult taskID ("Failed to generate customer profiles: " ++ e) now)
    | Except.ok profileResp =>
      Response.success taskID (createSuccessTaskResult taskID profileResp now artifactID messageID)

/-- handleTask: re-marshal rpcReq.Params and parse it as MessageParams
(re-marshalling a decoded value never fails, so the source's first
-32602 branch is unreachable); a parse failure is error -32602. -/
def handleTask (gen : String → Except String ProfileResponse)
    (now artifactID messageID : String) (rpcReq : JSONRPCRequest) : Response :=
  match decodeMessageParams (marshalGoVal rpcReq.params) with
  | none => Response.rpcError rpcReq.id "Invalid parameters" (-32602)
  | some msgParams => processTask gen now artifactID messageID rpcReq.id msgParams.message

/-- handleDirectMessage: parse the raw body as a bare MessageParams
object; failure is error -32700; success runs the task body under the
synthetic id "direct-message". -/
def handleDirectMessage (gen : String → Except String ProfileResponse)
    (now artifactID messageID : String) (body : String) : Response :=
  match parseJsonText body with
  | none => Response.rpcError "" "Invalid request format" (-32700)
  | some j =>
    match decodeMessageParams j with
    | none => Response.rpcError "" "Invalid request format" (-32700)
    | some msgParams => processTask gen now artifactID messageID "direct-message" msgParams.message

/-- The envelope parse of HandleProfiler: gin's ShouldBindJSON, i.e.
one JSON value read off the body and decoded into JSONRPCRequest. -/
def envelopeOf (body : String) : Option JSONRPCRequest :=
  match parseJsonPrefix body with
  | some j => decodeRPCRequest j
  | none => none

/-- HandleProfiler: bind the envelope, falling back to the direct
message path on bind failure; validate the version; route on the
method name. -/
def handleProfiler (gen : String → Except String ProfileResponse)
    (now artifactID messageID : String) (body : String) : Response :=
  match envelopeOf body with
  | none => handleDirectMessage gen now artifactID messageID body
  | some rpcReq =>
    if rpcReq.jsonrpc ≠ "2.0" then
      Response.rpcError rpcReq.id "Invalid JSON-RPC version" (-32600)
    else
      match rpcReq.method with
      | "agent/task" => handleTask gen now artifactID messageID rpcReq
      | "message/send" => handleTask gen now artifactID messageID rpcReq
      | m => Response.rpcError rpcReq.id ("Method not found: " ++ m) (-32601)

/-! ## Spec-side definitions

These definitions follow the specification's words, to be compared
with the code-derived definitions above. -/

/-- The value the history loop would contribute for a record: its
normalized text. -/
def recordContribution (item : List (String × Json)) : String :=
  cleanHistoryText ((recText? item).getD "")

/-- Acceptance of a history record exactly as claim C1 words it: kind
"text", non-empty text field, and normalized text not noise. -/
def claimAccepts (item : List (String × Json)) : Bool :=
  recKind? item == some "text" &&
  (match recText? item with
   | some t => t != "" && !isNoise (cleanHistoryText t)
   | none => false)

/-- The contribution claim C1 assigns to a data part: the normalized
text of the most recent record it accepts. -/
def claimPick (records : List (List (String × Json))) : Option String :=
  (records.reverse.find? claimAccepts).map recordContribution

/-- Acceptance as amended: the normalized text must additionally be
non-empty (the code skips a candidate whose normalization is empty
and keeps scanning). -/
def claimAcceptsAmended (item : List (String × Json)) : Bool :=
  recKind? item == some "text" &&
  (match recText? item with
   | some t => t != "" && !isNoise (cleanHistoryText t) && cleanHistoryText t != ""
   | none => false)

/-- The amended contribution of a data part. -/
def claimPickAmended (records : List (List (String × Json))) : Option String :=
  (records.reverse.find? claimAcceptsAmended).map recordContribution

/-- A message whose sole part is a text part carrying the given string
payload (as a decoded inbound message would). -/
def singleTextMessage (s : String) : A2AMessage :=
  { kind := "message", role := "user", messageId := "", taskId := none,
    parts := [⟨"text", GoVal.json (Json.str s), GoVal.json Json.null⟩] }

/-- A dynamic value as it looks after one serialize-then-parse round
trip: a *string comes back as the plain string it pointed to. -/
def goValWire : GoVal → GoVal
  | .ptrStr s => .json (.str s)
  | v => v

def normalizePart (p : MessagePart) : MessagePart :=
  { kind := p.kind, text := goValWire p.text, data := goValWire p.data }

def normalizeMessage (m : A2AMessage) : A2AMessage :=
  { m with parts := m.parts.map normalizePart }

def normalizeStatus (st : TaskStatus) : TaskStatus :=
  { st with message := st.message.map normalizeMessage }

def normalizeArtifact (a : Artifact) : Artifact :=
  { a with parts := a.parts.map normalizePart }

/-- A TaskResult after one serialize-then-parse round trip: identical
except that interface-typed part payloads hold the direct JSON values
(string pointers become the equal plain strings). -/
def normalizeTaskResult (t : TaskResult) : TaskResult :=
  { t with status := normalizeStatus t.status,
           artifacts := t.artifacts.map normalizeArtifact,
           history := t.history.map normalizeMessage }

/-- The behaviour claim C2 asserts for the fallback path: a bare
MessageParams parse is attempted, a success is handled as a task
request under the synthetic correlation id "direct-message", and only
a second failure yields the -32700 RPC error. -/
def c2Conclusion (gen : String → Except String ProfileResponse)
    (now aid mid body : String) : Prop :=
  handleProfiler gen now aid mid body =
    match (parseJsonText body).bind decodeMessageParams with
    | some mp => processTask gen now aid mid "direct-message" mp.message
    | none => Response.rpcError "" "Invalid request format" (-32700)

/-! ## Concrete inputs used by witnesses and counterexamples -/

/-- A history record with kind "text" and the given text. -/
def textRecord (t : String) : Json :=
  Json.obj [("kind", Json.str "text"), ("text", Json.str t)]

/-- The data part of the worked example in claim C1. -/
def petPart : MessagePart :=
  ⟨"data", GoVal.json Json.null,
    GoVal.json (Json.arr [textRecord "Generating...", textRecord "A pet care app"])⟩

/-- The record array petPart's payload decodes to. -/
def petRecords : List (List (String × Json)) :=
  [[("kind", Json.str "text"), ("text", Json.str "Generating...")],
   [("kind", Json.str "text"), ("text", Json.str "A pet care app")]]

/-- The message of the worked example in claim C1. -/
def petMsg : A2AMessage :=
  { kind := "message", role := "user", messageId := "", taskId := none, parts := [petPart] }

/-- A data part whose most recent record has non-empty text that
normalizes to the empty string: claim C1 as stated accepts it, the
code skips it and keeps scanning. -/
def cexPart : MessagePart :=
  ⟨"data", GoVal.json Json.null,
    GoVal.json (Json.arr [textRecord "A pet care app", textRecord " "])⟩

/-- The record array cexPart's payload decodes to. -/
def cexRecords : List (List (String × Json)) :=
  [[("kind", Json.str "text"), ("text", Json.str "A pet care app")],
   [("kind", Json.str "text"), ("text", Json.str " ")]]

/-- A message holding only cexPart. -/
def cexMsg : A2AMessage :=
  { kind := "message", role := "user", messageId := "", taskId := none, parts := [cexPart] }

/-- A generation capability that succeeds with an empty profile list. -/
def genOk : String → Except String ProfileResponse :=
  fun idea => Except.ok { businessIdea := idea, profiles := [], summary := "", keywords := [] }

/-- The profile response genOk returns for the idea "x". -/
def respX : ProfileResponse :=
  { businessIdea := "x", profiles := [], summary := "", keywords := [] }

/-- A message with an empty part list. -/
def emptyPartsMsg : A2AMessage :=
  { kind := "message", role := "user", messageId := "", taskId := none, parts := [] }

/-- A body that fails the envelope bind (id is a number, not a string)
but parses as a bare MessageParams object. -/
def bareBody : String :=
  "\x7b\"id\":5,\"message\":\x7b\"kind\":\"message\",\"parts\":[\x7b\"kind\":\"text\",\"text\":\"A pet care app\"\x7d]\x7d\x7d"

/-- A well-formed envelope whose protocol version is not "2.0". -/
def badVersionBody : String :=
  "\x7b\"jsonrpc\":\"1.0\",\"id\":\"z9\",\"method\":\"message/send\"\x7d"

/-- The envelope badVersionBody binds to. -/
def badVersionReq : JSONRPCRequest :=
  { jsonrpc := "1.0", id := "z9", method := "message/send", params := GoVal.json Json.null }

/-- A valid envelope with an unrecognized method name. -/
def badMethodBody : String :=
  "\x7b\"jsonrpc\":\"2.0\",\"id\":\"m3\",\"method\":\"profile/build\"\x7d"

/-- The envelope badMethodBody binds to. -/
def badMethodReq : JSONRPCRequest :=
  { jsonrpc := "2.0", id := "m3", method := "profile/build", params := GoVal.json Json.null }

/-- A fully valid task request carrying the idea "x" under id "42". -/
def okBody : String :=
  "\x7b\"jsonrpc\":\"2.0\",\"id\":\"42\",\"method\":\"agent/task\",\"params\":\x7b\"message\":\x7b\"parts\":[\x7b\"kind\":\"text\",\"text\":\"x\"\x7d]\x7d\x7d\x7d"

/-- The TaskResult the dispatcher builds for okBody under genOk. -/
def okResult : TaskResult :=
  createSuccessTaskResult "42" respX "ts0" "aid0" "mid0"

/-- A failed TaskResult used by the round-trip counterexample. -/
def cexTaskResult : TaskResult :=
  createErrorTaskResult "t1" "boom" "2024-01-01T00:00:00Z"

/-! ## Helper lemmas -/

theorem dropWhile_head_false (p : Char → Bool) (l : List Char) (c : Char)
    (h : (l.dropWhile p).head? = some c) : p c = false := by
  induction l with
  | nil => simp [List.dropWhile] at h
  | cons a t ih =>
    rw [List.dropWhile_cons] at h
    by_cases hp : p a
    · exact ih (by simpa [hp] using h)
    · simp only [hp, if_false] at h
      cases h
      simpa using hp

theorem trimChars_as_rdrop (l : List Char) :
    trimChars l = List.rdropWhile goIsSpace (l.dropWhile goIsSpace) := rfl

theorem dropWhile_trimChars (l : List Char) :
    (trimChars l).dropWhile goIsSpace = trimChars l := by
  cases ht : trimChars l with
  | nil => rfl
  | cons c rest =>
    rw [List.dropWhile_cons]
    have hpre : trimChars l <+: l.dropWhile goIsSpace := by
      rw [trimChars_as_rdrop]
      exact List.rdropWhile_prefix _ _
    rw [ht] at hpre
    obtain ⟨r, hr⟩ := hpre
    have hc : (l.dropWhile goIsSpace).head? = some c := by
      rw [← hr]; rfl
    have := dropWhile_head_false goIsSpace l c hc
    simp [this]

theorem trimChars_idem (l : List Char) : trimChars (trimChars l) = trimChars l := by
  rw [trimChars_as_rdrop (trimChars l), dropWhile_trimChars, trimChars_as_rdrop]
  exact List.rdropWhile_idempotent _ _

theorem trimSpace_idem (s : String) : trimSpace (trimSpace s) = trimSpace s := by
  show String.mk (trimChars (String.mk (trimChars s.data)).data) = String.mk (trimChars s.data)
  rw [show (String.mk (trimChars s.data)).data = trimChars s.data from rfl, trimChars_idem]

theorem recordCandidate_eq (r : List (String × Json)) :
    recordCandidate r =
      if claimAcceptsAmended r then some (recordContribution r) else none := by
  unfold recordCandidate claimAcceptsAmended recordContribution
  cases hk : recKind? r with
  | none => simp
  | some k =>
    cases ht : recText? r with
    | none => by_cases hk2 : k = "text" <;> simp [hk2]
    | some t =>
      by_cases hk2 : k = "text" <;> by_cases h0 : t = "" <;>
        by_cases hn : isNoise (cleanHistoryText t) <;>
        by_cases hc : cleanHistoryText t = "" <;>
        simp [hk2, h0, hn, hc]

theorem historyScan_eq (l : List (List (String × Json))) :
    historyScan l = (l.find? claimAcceptsAmended).map recordContribution := by
  induction l with
  | nil => rfl
  | cons r t ih =>
    rw [historyScan, recordCandidate_eq]
    by_cases h : claimAcceptsAmended r
    · simp [h, List.find?_cons_of_pos]
    · rw [List.find?_cons_of_neg _ (by simpa using h)]
      simpa [h] using ih

theorem extract_singleText_trim (y : String) :
    extractBusinessIdea (singleTextMessage (trimSpace y)) = trimSpace y := by
  by_cases h : trimSpace y = ""
  · rw [h]; rfl
  · simp only [extractBusinessIdea, singleTextMessage, partTexts, List.flatMap_cons,
      List.flatMap_nil]
    simp [h, stringsJoin, trimSpace_idem]

theorem processTask_success (gen : String → Except String ProfileResponse)
    (now aid mid tid : String) (msg : A2AMessage) (i : String) (r : TaskResult)
    (h : processTask gen now aid mid tid msg = Response.success i r) :
    i = tid ∧ r.id = tid := by
  unfold processTask at h
  by_cases he : extractBusinessIdea msg = ""
  · simp only [he, if_pos] at h
    injection h with h1 h2
    subst h1; subst h2
    exact ⟨rfl, rfl⟩
  · simp only [he, if_neg, if_false] at h
    cases hg : gen (extractBusinessIdea msg) with
    | error e =>
      rw [hg] at h
      injection h with h1 h2
      subst h1; subst h2
      exact ⟨rfl, rfl⟩
    | ok resp =>
      rw [hg] at h
      injection h with h1 h2
      subst h1; subst h2
      exact ⟨rfl, rfl⟩

theorem goVal_wire_json (v : GoVal) : GoVal.json (encodeGoVal v) = goValWire v := by
  cases v <;> rfl

theorem goValWire_nil (v : GoVal) :
    (goValWire v = GoVal.json Json.null) ↔ (v = GoVal.json Json.null) := by
  cases v with
  | json j => simp [goValWire]
  | ptrStr s => simp [goValWire]

theorem decodePart_encodePart (p : MessagePart) :
    decodePart (encodePart p) = some (normalizePart p) := by
  obtain ⟨kind, text, data⟩ := p
  by_cases ht : text = GoVal.json Json.null <;> by_cases hd : data = GoVal.json Json.null <;>
    simp +decide [encodePart, decodePart, foldFields, applyPartField, keyMatches, setStr,
      zeroPart, normalizePart, ht, hd, goVal_wire_json,
      (goValWire_nil _).mpr, goValWire]

theorem mapM_decodePart (ps : List MessagePart) :
    decodeEach decodePart (ps.map encodePart) = some (ps.map normalizePart) := by
  induction ps with
  | nil => rfl
  | cons p t ih => simp [decodeEach, decodePart_encodePart, ih]

theorem decodeMessage_encodeMessage (m : A2AMessage) :
    decodeMessage (encodeMessage m) = some (normalizeMessage m) := by
  obtain ⟨kind, role, parts, messageId, taskId⟩ := m
  by_cases hmi : messageId = "" <;> cases taskId <;>
    simp +decide [encodeMessage, decodeMessage, foldFields, applyMessageField, keyMatches,
      setStr, setPartList, setOptStr, zeroMessage, normalizeMessage, hmi, mapM_decodePart]

theorem encodeMessage_ne_null (m : A2AMessage) : encodeMessage m ≠ Json.null := by
  simp [encodeMessage]

theorem encodeStatus_ne_null (st : TaskStatus) : encodeStatus st ≠ Json.null := by
  simp [encodeStatus]

theorem decodeStatus_encodeStatus (st : TaskStatus) :
    decodeStatus (encodeStatus st) = some (normalizeStatus st) := by
  obtain ⟨state, timestamp, message⟩ := st
  cases message with
  | none =>
    simp +decide [encodeStatus, decodeStatus, foldFields, applyStatusField, keyMatches,
      setStr, setOptMessage, zeroStatus, normalizeStatus]
  | some m =>
    simp +decide [encodeStatus, decodeStatus, foldFields, applyStatusField, keyMatches,
      setStr, setOptMessage, encodeMessage_ne_null, zeroStatus, normalizeStatus,
      decodeMessage_encodeMessage]

theorem decodeArtifact_encodeArtifact (a : Artifact) :
    decodeArtifact (encodeArtifact a) = some (normalizeArtifact a) := by
  obtain ⟨artifactId, name, parts⟩ := a
  simp +decide [encodeArtifact, decodeArtifact, foldFields, applyArtifactField, keyMatches,
    setStr, setPartList, zeroArtifact, normalizeArtifact, mapM_decodePart]

theorem mapM_decodeArtifact (xs : List Artifact) :
    decodeEach decodeArtifact (xs.map encodeArtifact) = some (xs.map normalizeArtifact) := by
  induction xs with
  | nil => rfl
  | cons a t ih => simp [decodeEach, decodeArtifact_encodeArtifact, ih]

theorem mapM_decodeMessage (xs : List A2AMessage) :
    decodeEach decodeMessage (xs.map encodeMessage) = some (xs.map normalizeMessage) := by
  induction xs with
  | nil => rfl
  | cons m t ih => simp [decodeEach, decodeMessage_encodeMessage, ih]

theorem decodeTaskResult_encodeTaskResult (t : TaskResult) :
    decodeTaskResult (encodeTaskResult t) = some (normalizeTaskResult t) := by
  obtain ⟨id, contextId, status, artifacts, history, kind⟩ := t
  by_cases hc : contextId = "" <;> by_cases ha : artifacts = [] <;> by_cases hh : history = [] <;>
    simp +decide [encodeTaskResult, decodeTaskResult, foldFields, applyTaskResultField,
      keyMatches, setStr, setStatusValue, setArtifactList, setHistoryList,
      encodeStatus_ne_null, zeroTaskResult, normalizeTaskResult, hc, ha, hh,
      decodeStatus_encodeStatus, mapM_decodeArtifact, mapM_decodeMessage]

theorem encodePart_normalize (p : MessagePart) :
    encodePart (normalizePart p) = encodePart p := by
  obtain ⟨kind, text, data⟩ := p
  cases text <;> cases data <;>
    simp [encodePart, normalizePart, goValWire, encodeGoVal]

theorem encodeMessage_normalize (m : A2AMessage) :
    encodeMessage (normalizeMessage m) = encodeMessage m := by
  obtain ⟨kind, role, parts, messageId, taskId⟩ := m
  simp [encodeMessage, normalizeMessage, List.map_map, Function.comp_def, encodePart_normalize]

theorem encodeStatus_normalize (st : TaskStatus) :
    encodeStatus (normalizeStatus st) = encodeStatus st := by
  obtain ⟨state, timestamp, message⟩ := st
  cases message <;> simp [encodeStatus, normalizeStatus, encodeMessage_normalize]

theorem encodeArtifact_normalize (a : Artifact) :
    encodeArtifact (normalizeArtifact a) = encodeArtifact a := by
  obtain ⟨artifactId, name, parts⟩ := a
  simp [encodeArtifact, normalizeArtifact, List.map_map, Function.comp_def, encodePart_normalize]

theorem encodeTaskResult_normalize (t : TaskResult) :
    encodeTaskResult (normalizeTaskResult t) = encodeTaskResult t := by
  obtain ⟨id, contextId, status, artifacts, history, kind⟩ := t
  by_cases ha : artifacts = [] <;> by_cases hh : history = [] <;>
    simp [encodeTaskResult, normalizeTaskResult, ha, hh, encodeStatus_normalize,
      List.map_map, Function.comp_def, encodeArtifact_normalize, encodeMessage_normalize]

/-! ## Claim theorems -/

/-- Claim C1, counterexample to the claim as stated: for the data part
whose history is [text "A pet care app", text " "], the claim's scan
accepts the most recent record (text " " is non-empty and its
normalization "" is not noise) and so mandates the contribution "",
but the code skips a candidate whose normalization is empty and
contributes "A pet care app" from the older record. -/
theorem c1_history_scan_counterexample :
    dataRecords cexPart.data = some cexRecords ∧
    partTexts cexPart = ["A pet care app"] ∧
    claimPick cexRecords = some "" ∧
    extractBusinessIdea cexMsg = "A pet care app" := by decide

/-- Claim C1 as amended: for every data part whose payload decodes to
a record sequence, the part's contribution is the normalized text of
the single most recent record with kind "text", a non-empty text
field, and a normalization that is non-empty and not noise — scanning
from the end toward the start, continuing past rejected records and
stopping at the first accepted one; in particular Extract on the
worked example returns "A pet care app". -/
theorem c1_history_scan (p : MessagePart) (records : List (List (String × Json)))
    (h1 : p.kind = "data") (h2 : p.data ≠ GoVal.json Json.null)
    (h3 : dataRecords p.data = some records) :
    partTexts p = (claimPickAmended records).toList ∧
    extractBusinessIdea petMsg = "A pet care app" := by
  constructor
  · simp +decide only [partTexts, h1, h2, h3, historyScan_eq, claimPickAmended,
      ne_eq, not_false_eq_true, and_self, if_true, if_false, List.nil_append]
    cases hf : records.reverse.find? claimAcceptsAmended <;> simp [hf]
  · decide

/-- Witness for c1_history_scan at the worked example's data part. -/
theorem c1_history_scan_witness :
    partTexts petPart = (claimPickAmended petRecords).toList ∧
    extractBusinessIdea petMsg = "A pet care app" :=
  c1_history_scan petPart petRecords (by decide) (by decide) (by decide)

/-- Claim C3: a request whose message extracts to the empty idea gets
a failed TaskResult instructing the caller to supply a business idea,
delivered as a normal result (no RPC error object); a message with an
empty part list extracts to the empty string. -/
theorem c3_empty_idea_soft_failure (gen : String → Except String ProfileResponse)
    (now aid mid tid : String) (msg : A2AMessage)
    (h : extractBusinessIdea msg = "") :
    processTask gen now aid mid tid msg =
      Response.success tid (createErrorTaskResult tid
        "Please provide a business idea to generate customer profiles." now) ∧
    (createErrorTaskResult tid
      "Please provide a business idea to generate customer profiles." now).status.state =
      StateFailed ∧
    (createErrorTaskResult tid
      "Please provide a business idea to generate customer profiles." now).status.message.map
        (fun m => (m.role, m.parts)) =
      some (RoleAgent,
        [TextPart "Please provide a business idea to generate customer profiles."]) ∧
    extractBusinessIdea emptyPartsMsg = "" := by
  refine ⟨?_, rfl, rfl, rfl⟩
  simp [processTask, h]

/-- Witness for c3_empty_idea_soft_failure at the empty-part-list
message. -/
theorem c3_empty_idea_soft_failure_witness :
    extractBusinessIdea emptyPartsMsg = "" ∧
    processTask genOk "n0" "a0" "m0" "t7" emptyPartsMsg =
      Response.success "t7" (createErrorTaskResult "t7"
        "Please provide a business idea to generate customer profiles." "n0") :=
  ⟨by decide,
   (c3_empty_idea_soft_failure genOk "n0" "a0" "m0" "t7" emptyPartsMsg (by decide)).1⟩

/-- Claim C4: the success builder yields state completed, the given
timestamp, an agent-authored text part rendering the profile as the
status message, and exactly one artifact carrying the same rendered
content; the failure builder yields state failed, the timestamp, an
agent-authored text part with the failure explanation, and no
artifacts. -/
theorem c4_builders_shape (tid emsg : String) (resp : ProfileResponse) (now aid mid : String) :
    ((createSuccessTaskResult tid resp now aid mid).id = tid ∧
     (createSuccessTaskResult tid resp now aid mid).status.state = StateCompleted ∧
     (createSuccessTaskResult tid resp now aid mid).status.timestamp = now ∧
     (createSuccessTaskResult tid resp now aid mid).status.message.map
        (fun m => (m.role, m.parts)) =
       some (RoleAgent, [TextPart (formatProfileResponse resp)]) ∧
     (createSuccessTaskResult tid resp now aid mid).artifacts.map (fun a => a.parts) =
       [[TextPart (formatProfileResponse resp)]]) ∧
    ((createErrorTaskResult tid emsg now).id = tid ∧
     (createErrorTaskResult tid emsg now).status.state = StateFailed ∧
     (createErrorTaskResult tid emsg now).status.timestamp = now ∧
     (createErrorTaskResult tid emsg now).status.message.map (fun m => (m.role, m.parts)) =
       some (RoleAgent, [TextPart emsg]) ∧
     (createErrorTaskResult tid emsg now).artifacts = []) :=
  ⟨⟨rfl, rfl, rfl, rfl, rfl⟩, ⟨rfl, rfl, rfl, rfl, rfl⟩⟩

/-- Claim C9: extraction is idempotent — wrapping Extract's result as
the sole text part of a new message and extracting again returns the
same string. -/
theorem c9_extract_idempotent (m : A2AMessage) :
    extractBusinessIdea (singleTextMessage (extractBusinessIdea m)) =
      extractBusinessIdea m :=
  extract_singleText_trim (stringsJoin (m.parts.flatMap partTexts) " ")

/-- Claim C10: a text part with a non-empty string payload contributes
that string verbatim — no trimming, tag stripping or noise filtering
(only the final joined result is trimmed) — so the message whose only
part is text "Generating..." extracts to "Generating...". -/
theorem c10_direct_text_part (s : String) (d : GoVal) (h : s ≠ "") :
    partTexts ⟨"text", GoVal.json (Json.str s), d⟩ = [s] ∧
    extractBusinessIdea (singleTextMessage s) = trimSpace s ∧
    extractBusinessIdea (singleTextMessage "Generating...") = "Generating..." := by
  refine ⟨?_, ?_, by decide⟩
  · simp +decide [partTexts, h]
  · simp [extractBusinessIdea, singleTextMessage, partTexts, h, stringsJoin]

/-- Witness for c10_direct_text_part at the "Generating..." part. -/
theorem c10_direct_text_part_witness :
    partTexts ⟨"text", GoVal.json (Json.str "Generating..."), GoVal.json Json.null⟩ =
      ["Generating..."] ∧
    extractBusinessIdea (singleTextMessage "Generating...") = "Generating..." :=
  ⟨(c10_direct_text_part "Generating..." (GoVal.json Json.null) (by decide)).1,
   (c10_direct_text_part "Generating..." (GoVal.json Json.null) (by decide)).2.2⟩

theorem handleTask_success (gen : String → Except String ProfileResponse)
    (now aid mid : String) (req : JSONRPCRequest) (i : String) (r : TaskResult)
    (h : handleTask gen now aid mid req = Response.success i r) :
    r.id = i ∧ i = req.id := by
  unfold handleTask at h
  cases hd : decodeMessageParams (marshalGoVal req.params) with
  | none => rw [hd] at h; exact absurd h (by simp)
  | some mp =>
    rw [hd] at h
    obtain ⟨h1, h2⟩ := processTask_success _ _ _ _ _ _ _ _ h
    exact ⟨by rw [h1, h2], h1⟩

/-- Claim C2: when the body does not bind as an envelope, the
dispatcher retries it as a bare MessageParams object and, on success,
handles it as a task request under the synthetic id "direct-message";
only when that second parse also fails does it answer with RPC error
-32700. -/
theorem c2_bare_message_fallback (gen : String → Except String ProfileResponse)
    (now aid mid body : String) (h : envelopeOf body = none) :
    c2Conclusion gen now aid mid body := by
  unfold c2Conclusion handleProfiler handleDirectMessage
  rw [h]
  cases hp : parseJsonText body with
  | none => simp [hp]
  | some j => cases hd : decodeMessageParams j <;> simp [hp, hd]

/-- Witness for c2_bare_message_fallback at a body whose envelope bind
fails (numeric id) but which parses as a bare message object. -/
theorem c2_bare_message_fallback_witness :
    c2Conclusion genOk "n0" "a0" "m0" bareBody :=
  c2_bare_message_fallback genOk "n0" "a0" "m0" bareBody (by decide)

/-- Claim C5: an envelope that binds but whose protocol version field
is not "2.0" is answered with RPC error -32600 carrying the request's
id. -/
theorem c5_bad_version (gen : String → Except String ProfileResponse)
    (now aid mid body : String) (req : JSONRPCRequest)
    (h1 : envelopeOf body = some req) (h2 : req.jsonrpc ≠ "2.0") :
    handleProfiler gen now aid mid body =
      Response.rpcError req.id "Invalid JSON-RPC version" (-32600) := by
  unfold handleProfiler
  rw [h1]
  simp [h2]

/-- Witness for c5_bad_version at a version-1.0 envelope. -/
theorem c5_bad_version_witness :
    envelopeOf badVersionBody = some badVersionReq ∧
    handleProfiler genOk "n0" "a0" "m0" badVersionBody =
      Response.rpcError "z9" "Invalid JSON-RPC version" (-32600) :=
  ⟨by decide,
   c5_bad_version genOk "n0" "a0" "m0" badVersionBody badVersionReq (by decide) (by decide)⟩

/-- Claim C6: a valid envelope routes "agent/task" and "message/send"
to the same task handler and answers any other method with RPC error
-32601 carrying the original id. -/
theorem c6_method_routing (gen : String → Except String ProfileResponse)
    (now aid mid body : String) (req : JSONRPCRequest)
    (h1 : envelopeOf body = some req) (h2 : req.jsonrpc = "2.0") :
    handleProfiler gen now aid mid body =
      (if req.method = "agent/task" ∨ req.method = "message/send" then
        handleTask gen now aid mid req
      else
        Response.rpcError req.id ("Method not found: " ++ req.method) (-32601)) := by
  unfold handleProfiler
  rw [h1]
  by_cases hA : req.method = "agent/task"
  · simp [h2, hA]
  · by_cases hB : req.method = "message/send"
    · simp [h2, hA, hB]
    · simp [h2, hA, hB]

/-- Witness for c6_method_routing at an unknown method name. -/
theorem c6_method_routing_witness :
    envelopeOf badMethodBody = some badMethodReq ∧
    handleProfiler genOk "n0" "a0" "m0" badMethodBody =
      (if badMethodReq.method = "agent/task" ∨ badMethodReq.method = "message/send" then
        handleTask genOk "n0" "a0" "m0" badMethodReq
      else
        Response.rpcError badMethodReq.id
          ("Method not found: " ++ badMethodReq.method) (-32601)) :=
  ⟨by decide,
   c6_method_routing genOk "n0" "a0" "m0" badMethodBody badMethodReq (by decide) (by decide)⟩

/-- Claim C7: every response that carries a result frames it as a
TaskResult (both the completed and the failed shape) whose id equals
the response's correlation id, which is the bound envelope's id, or
the synthetic "direct-message" when the request arrived through the
schema-less bare-message path. -/
theorem c7_result_id_correlation (gen : String → Except String ProfileResponse)
    (now aid mid body : String) (i : String) (r : TaskResult)
    (h : handleProfiler gen now aid mid body = Response.success i r) :
    r.id = i ∧
    ((∃ req, envelopeOf body = some req ∧ i = req.id) ∨
     (envelopeOf body = none ∧ i = "direct-message")) := by
  unfold handleProfiler at h
  cases he : envelopeOf body with
  | none =>
    simp only [he] at h
    unfold handleDirectMessage at h
    cases hp : parseJsonText body with
    | none => simp [hp] at h
    | some j =>
      simp only [hp] at h
      cases hd : decodeMessageParams j with
      | none => simp [hd] at h
      | some mp =>
        simp only [hd] at h
        obtain ⟨h1, h2⟩ := processTask_success _ _ _ _ _ _ _ _ h
        exact ⟨by rw [h1, h2], Or.inr ⟨rfl, h1⟩⟩
  | some req =>
    simp only [he] at h
    by_cases hv : req.jsonrpc ≠ "2.0"
    · rw [if_pos hv] at h; exact absurd h (by simp)
    · rw [if_neg hv] at h
      split at h
      · obtain ⟨hr, hi⟩ := handleTask_success _ _ _ _ _ _ _ h
        exact ⟨hr, Or.inl ⟨req, rfl, hi⟩⟩
      · obtain ⟨hr, hi⟩ := handleTask_success _ _ _ _ _ _ _ h
        exact ⟨hr, Or.inl ⟨req, rfl, hi⟩⟩
      · exact absurd h (by simp)

/-- Witness for c7_result_id_correlation at a fully valid task
request. -/
theorem c7_result_id_correlation_witness :
    okResult.id = "42" ∧
    ((∃ req, envelopeOf okBody = some req ∧ "42" = req.id) ∨
     (envelopeOf okBody = none ∧ "42" = "direct-message")) :=
  c7_result_id_correlation genOk "ts0" "aid0" "mid0" okBody "42" okResult (by decide)

/-- Claim C8, counterexample to the claim as stated: serializing the
failed TaskResult built by createErrorTaskResult and parsing the JSON
back does not recover a structure identical field-for-field, because
the builder stores the message text as a *string and the parse stores
the plain string. -/
theorem c8_roundtrip_counterexample :
    decodeTaskResult (encodeTaskResult cexTaskResult) ≠ some cexTaskResult := by decide

/-- Claim C8 as amended: for both builder outputs, serializing then
parsing recovers the structure up to replacing each *string text
payload by the equal plain string (normalizeTaskResult), and
re-serializing the parsed structure yields the identical JSON
document. -/
theorem c8_roundtrip_amended (tid emsg now aid mid : String) (resp : ProfileResponse) :
    (decodeTaskResult (encodeTaskResult (createSuccessTaskResult tid resp now aid mid)) =
        some (normalizeTaskResult (createSuccessTaskResult tid resp now aid mid)) ∧
      encodeTaskResult (normalizeTaskResult (createSuccessTaskResult tid resp now aid mid)) =
        encodeTaskResult (createSuccessTaskResult tid resp now aid mid)) ∧
    (decodeTaskResult (encodeTaskResult (createErrorTaskResult tid emsg now)) =
        some (normalizeTaskResult (createErrorTaskResult tid emsg now)) ∧
      encodeTaskResult (normalizeTaskResult (createErrorTaskResult tid emsg now)) =
        encodeTaskResult (createErrorTaskResult tid emsg now)) :=
  ⟨⟨decodeTaskResult_encodeTaskResult _, encodeTaskResult_normalize _⟩,
   ⟨decodeTaskResult_encodeTaskResult _, encodeTaskResult_normalize _⟩⟩

end CustomerProfiler
